import Mathlib

/-!
# Verification of the `governor` scheduling engine

Shallow embedding of the core scheduling engine from `governor_impl.cpp` /
`governor_impl.h` (the implementation linked by `governor_hooks.cpp`), with
theorems settling the specification claims about it.

Machine integers (`size_t`) are modelled as `Nat`: the program only ever
increments or decrements these counters by one near zero, so overflow never
comes into play on the inputs considered.  The memory-mapped backing file is
modelled as the list of characters written so far; the opaque OS thread
identity (`std::thread::id`) is modelled as a `Nat`, with `Option Nat` for the
atomic active-thread cell (`none` = the "no thread" sentinel id).
-/

/-- One scheduling decision (`struct SchedPoint`, governor_impl.h). -/
structure SchedPoint where
  threadId : Nat
  available : Nat
  higher : Nat
deriving Repr, DecidableEq

/-- Per-subscribed-thread record (`struct ThreadState`, governor_impl.h). -/
structure ThreadState where
  threadId : Nat
  isInControlPoint : Bool := false
deriving Repr, DecidableEq

/-- `enum RunMode` (governor_impl.h). -/
inductive RunMode where
  | RUN_RANDOM
  | RUN_EXPLORE
  | RUN_PRESET
deriving Repr, DecidableEq

/-! ## Serialization (`SchedPoint::read` / `SchedPoint::write`)

`SchedPoint::write` emits `"%lu %lu %lu\n"`.  `SchedPoint::read` parses with
`sscanf(buffer, "%lu %lu %lu\n%n", ...)`: each `%lu` skips leading whitespace
and then requires at least one decimal digit, the blank and `\n` directives
skip any run of whitespace, and the call fails (returns 0) unless all three
conversions succeed and `%n` was reached.  We model the buffer from the
current position as a `List Char` and a successful parse as the value plus
the remaining suffix (the C code's consumed-character count `nchars`). -/

/-- C `isspace`: the whitespace characters `sscanf` skips. -/
def isWsChar (c : Char) : Bool :=
  c = ' ' || c = '\t' || c = '\n' || c = '\x0b' || c = '\x0c' || c = '\r'

def skipWs (cs : List Char) : List Char := cs.dropWhile isWsChar

/-- Numeric value of a decimal digit character. -/
def digitVal (c : Char) : Nat := c.toNat - 48

/-- Value of a run of decimal digits, most significant first. -/
def digitsVal (ds : List Char) : Nat :=
  ds.foldl (fun a c => a * 10 + digitVal c) 0

/-- One `%lu` conversion: skip nothing here (callers pre-skip whitespace),
take a maximal non-empty run of digits. -/
def parseNat (cs : List Char) : Option (Nat × List Char) :=
  let ds := cs.takeWhile Char.isDigit
  if ds.isEmpty then none
  else some (digitsVal ds, cs.dropWhile Char.isDigit)

/-- `SchedPoint::read` (governor_impl.cpp:45-55): `sscanf "%lu %lu %lu\n%n"`.
`none` models the `return 0` failure (no characters consumed). -/
def SchedPoint.readChars (cs : List Char) : Option (SchedPoint × List Char) :=
  (parseNat (skipWs cs)).bind fun p1 =>
    (parseNat (skipWs p1.2)).bind fun p2 =>
      (parseNat (skipWs p2.2)).bind fun p3 =>
        some (⟨p1.1, p2.1, p3.1⟩, skipWs p3.2)

/-- Decimal digit character for a value `< 10`. -/
def digitChar (n : Nat) : Char := Char.ofNat (48 + n)

/-- Decimal rendering, fuelled so that it computes by kernel reduction.
`natCharsAux fuel n acc` prepends the digits of `n` to `acc`; any
`fuel > n` is sufficient. -/
def natCharsAux : Nat → Nat → List Char → List Char
  | 0, _, acc => acc
  | fuel + 1, n, acc =>
    if n < 10 then digitChar n :: acc
    else natCharsAux fuel (n / 10) (digitChar (n % 10) :: acc)

/-- `printf "%lu"`: standard decimal rendering of a natural number. -/
def natChars (n : Nat) : List Char := natCharsAux (n + 1) n []

/-- `SchedPoint::write` (governor_impl.cpp:57-66): `"%lu %lu %lu\n"`. -/
def SchedPoint.writeChars (sp : SchedPoint) : List Char :=
  natChars sp.threadId ++ ' ' :: (natChars sp.available ++ ' ' :: (natChars sp.higher ++ ['\n']))

/-- The `"END\n"` sentinel appended by `HandleOutFile(true)`. -/
def endChars : List Char := ['E', 'N', 'D', '\n']

/-- The sentinel check (governor_impl.cpp:587-589):
`sscanf(buf, "END\n%n", &nchars); schedDone = nchars > 0`.  The literal
characters must match exactly; the trailing `\n` directive always succeeds
(it matches zero or more whitespace), so the check succeeds exactly when the
buffer starts with `END`. -/
def parseEnd (cs : List Char) : Bool :=
  match cs with
  | 'E' :: 'N' :: 'D' :: _ => true
  | _ => false

/-- The read loop of `HandleOutFile(false)` (governor_impl.cpp:575-584):
read records until one fails to parse, return them plus the rest of the
buffer.  Fuelled (each successful parse consumes at least one character, so
the buffer length is enough fuel). -/
def readSchedAux : Nat → List Char → List SchedPoint × List Char
  | 0, cs => ([], cs)
  | fuel + 1, cs =>
    match SchedPoint.readChars cs with
    | none => ([], cs)
    | some (sp, rest) =>
      ((sp :: (readSchedAux fuel rest).1, (readSchedAux fuel rest).2))

def readSched (cs : List Char) : List SchedPoint × List Char :=
  readSchedAux cs.length cs

/-- Serialization of a whole sequence, record by record. -/
def writeRecs (l : List SchedPoint) : List Char :=
  (l.map SchedPoint.writeChars).flatten

/-- A full file produced by a clean writing run: all records then `END`. -/
def writeSeq (l : List SchedPoint) : List Char := writeRecs l ++ endChars

/-- Reading a file as `HandleOutFile(false)` does: the parsed records and
whether the terminating sentinel followed them (the value of `_schedDone`). -/
def handleRead (cs : List Char) : List SchedPoint × Bool :=
  let (l, rest) := readSched cs
  (l, parseEnd rest)

/-! ### Round-trip lemmas -/

/-- A buffer suffix at which both the whitespace skip and the record parser
stop: empty, or starting with a non-whitespace non-digit character. -/
def stopper (cs : List Char) : Bool :=
  match cs with
  | [] => true
  | c :: _ => !isWsChar c && !c.isDigit

/-- The first character of `cs` (if any) does not satisfy `p`. -/
def notAt (p : Char → Bool) : List Char → Bool
  | [] => true
  | c :: _ => !p c

/-! ## Registry containers

`_threads : std::unordered_map<std::thread::id, ThreadState*>` is an
association list keyed by the opaque OS identity (a `Nat` here); its
iteration order is only ever used for order-independent scans.
`_threadIds : std::map<size_t, std::thread::id>` is an association list kept
sorted by strictly ascending key, so iterating it in list order is iterating
in ascending `threadId` order. -/

def lookupOs (k : Nat) : List (Nat × ThreadState) → Option ThreadState
  | [] => none
  | (k', v) :: rest => if k' = k then some v else lookupOs k rest

def lookupTid (k : Nat) : List (Nat × Nat) → Option Nat
  | [] => none
  | (k', v) :: rest => if k' = k then some v else lookupTid k rest

/-- `std::map` insertion via `operator[]`: keeps keys sorted, overwrites. -/
def insertTid (k v : Nat) : List (Nat × Nat) → List (Nat × Nat)
  | [] => [(k, v)]
  | (k', v') :: rest =>
    if k < k' then (k, v) :: (k', v') :: rest
    else if k = k' then (k, v) :: rest
    else (k', v') :: insertTid k v rest

/-- `unordered_map` insertion via `operator[]`: overwrite or append. -/
def insertOs (k : Nat) (v : ThreadState) : List (Nat × ThreadState) → List (Nat × ThreadState)
  | [] => [(k, v)]
  | (k', v') :: rest => if k' = k then (k', v) :: rest else (k', v') :: insertOs k v rest

/-- `erase(key)`: removes the (unique) entry with that key. -/
def eraseKey {α : Type} (k : Nat) : List (Nat × α) → List (Nat × α)
  | [] => []
  | (k', v) :: rest => if k' = k then rest else (k', v) :: eraseKey k rest

/-- Mutation of one `ThreadState` through its pointer: update the record of
key `k` in place. -/
def setFlag (k : Nat) (b : Bool) (l : List (Nat × ThreadState)) : List (Nat × ThreadState) :=
  l.map fun p => if p.1 = k then (p.1, { p.2 with isInControlPoint := b }) else p

/-- `std::count_if(_threadIds..., p.first > sp.threadId)`. -/
def countGreater (tid : Nat) (ids : List (Nat × Nat)) : Nat :=
  (ids.filter fun p => tid < p.1).length

/-! ## Governor state (the fields of `class Governor`, governor_impl.h) -/

structure GovState where
  runMode : RunMode
  sched : List SchedPoint
  schedIdx : Nat
  schedDone : Bool
  threadsToSub : Nat
  threads : List (Nat × ThreadState)
  threadIds : List (Nat × Nat)
  activeThreadId : Option Nat
  /-- Contents of the mapped `gov.data` buffer written so far (characters
  `[0, _fileIdx)`; the zeroed remainder of the mapping is not represented). -/
  file : List Char
deriving Repr, DecidableEq

/-- Outcome of an operation: normal return, or `GOV_ERR` diagnostic followed
by `std::abort()` (also used for assertion failures / undefined behaviour,
which stop the process before the operation returns).  The state records
what had been mutated up to that point.  Diagnostics are emitted exactly by
`abort` outcomes: in `governor_impl.cpp` every `GOV_ERR` in the modelled
operations is immediately followed by `std::abort()`. -/
inductive Out (α : Type) where
  | ok : α → GovState → Out α
  | abort : String → GovState → Out α
deriving Repr, DecidableEq

def Out.state {α : Type} : Out α → GovState
  | .ok _ s => s
  | .abort _ s => s

def Out.isAbort {α : Type} : Out α → Bool
  | .ok _ _ => false
  | .abort _ _ => true

/-- Modes in which the backing file is written (`_runMode == RUN_RANDOM ||
_runMode == RUN_EXPLORE` guards in governor_impl.cpp). -/
def writeMode (m : RunMode) : Bool :=
  m = RunMode.RUN_RANDOM || m = RunMode.RUN_EXPLORE

/-- Append bytes at `_fileIdx` (growing the mapping as needed). -/
def fileAppend (g : GovState) (cs : List Char) : GovState :=
  if writeMode g.runMode then { g with file := g.file ++ cs } else g

/-- The EXPLORE repair loop (governor_impl.cpp:426-434): first key of the
ascending `_threadIds` map that is `≥ t`. -/
def findGE (t : Nat) : List (Nat × Nat) → Option Nat
  | [] => none
  | (k, _) :: rest => if t ≤ k then some k else findGE t rest

/-- Common tail of `ChooseThread` (governor_impl.cpp:481-502): final lookup
of the chosen `threadId` (whose failure is an assertion failure), then the
record is written to the file in writing modes.  Returns the opaque identity
of the chosen thread. -/
def chooseFinish (g : GovState) (sp : SchedPoint) : Out Nat :=
  match lookupTid sp.threadId g.threadIds with
  | none => .abort "assert(itr != _threadIds.end())" g
  | some os => .ok os (fileAppend g sp.writeChars)

/-- `Governor::ChooseThread` (governor_impl.cpp:376-503).  `ridx` is the RNG
oracle for RANDOM mode: `std::shuffle` followed by `front()` yields some
element of the key vector, here the one at index `ridx % size`. -/
def ChooseThread (g : GovState) (mode : RunMode) (ridx : Nat) : Out Nat :=
  if g.threads.isEmpty || g.threadIds.isEmpty then
    .abort "assert(!_threads.empty() && !_threadIds.empty())" g
  else
    match mode with
    | .RUN_RANDOM =>
      let keys := g.threadIds.map Prod.fst
      let tid := keys.getD (ridx % keys.length) 0
      let sp : SchedPoint := ⟨tid, keys.length, countGreater tid g.threadIds⟩
      chooseFinish { g with sched := g.sched ++ [sp], schedIdx := g.sched.length } sp
    | .RUN_EXPLORE =>
      let idx := g.schedIdx
      let g1 : GovState := { g with schedIdx := idx + 1 }
      if g1.sched.length < idx then .abort "assert(idx <= _sched.size())" g1
      else
        let g2 := if idx = g1.sched.length then
            { g1 with sched := g1.sched ++
                [⟨(g1.threadIds.map Prod.fst).headD 0, g1.threadIds.length,
                  g1.threadIds.length - 1⟩] }
          else g1
        let sp := g2.sched.getD idx ⟨0, 0, 0⟩
        let sp := if idx = g2.sched.length - 1 then
            { sp with threadId := (findGE sp.threadId g2.threadIds).getD sp.threadId }
          else sp
        chooseFinish g2 sp
    | .RUN_PRESET =>
      let idx := g.schedIdx
      let g1 : GovState := { g with schedIdx := idx + 1 }
      if g1.sched.length ≤ idx then
        .abort "RUN_PRESET - no scheduling available at idx" g1
      else
        let sp := g1.sched.getD idx ⟨0, 0, 0⟩
        match lookupTid sp.threadId g1.threadIds with
        | none => .abort "RUN_PRESET - threadId is invalid at line" g1
        | some _ =>
          if sp.available ≠ g1.threadIds.length then
            .abort "RUN_PRESET - wrong available value" g1
          else if sp.higher ≠ countGreater sp.threadId g1.threadIds then
            .abort "RUN_PRESET - wrong higher value" g1
          else chooseFinish g1 sp

/-- The first step of `UpdateActiveThread` (governor_impl.cpp:343-345): if
the caller is the active thread, store the "no thread" sentinel in the cell. -/
def clearSelf (g : GovState) (osId : Nat) : GovState :=
  if g.activeThreadId = some osId then { g with activeThreadId := none } else g

/-- `Governor::UpdateActiveThread` (governor_impl.cpp:341-374), called by the
thread with opaque identity `osId`. -/
def UpdateActiveThread (g : GovState) (osId : Nat) (ridx : Nat) : Out Bool :=
  let g0 := clearSelf g osId
  if g0.threadsToSub ≠ 0 then .ok false g0
  else if g0.threads.any (fun p => !p.2.isInControlPoint) then .ok false g0
  else if g0.threads.isEmpty then .ok false g0
  else
    match ChooseThread g0 g0.runMode ridx with
    | .abort m s => .abort m s
    | .ok os g' =>
      match lookupOs os g'.threads with
      | none => .abort "_threads[threadToRun] dereferenced a null entry" g'
      | some _ => .ok true { g' with threads := setFlag os false g'.threads,
                                     activeThreadId := some os }

/-- `Governor::Prepare` (governor_impl.cpp:225-230). -/
def Prepare (g : GovState) (numThreads : Nat) : GovState :=
  { g with threadsToSub := numThreads }

/-- `Governor::Subscribe` (governor_impl.cpp:232-280), called by the thread
with opaque identity `osId`. -/
def Subscribe (g : GovState) (osId tid : Nat) : Out Unit :=
  if (lookupOs osId g.threads).isSome then
    .abort "thread already subbed" g
  else if g.threadsToSub = 0 then
    .abort "no more threads were expected to sub" g
  else if g.threads.any (fun p => p.2.threadId == tid) then
    .abort "threadId provided is already used" g
  else
    .ok () { g with threads := insertOs osId ⟨tid, false⟩ g.threads,
                    threadIds := insertTid tid osId g.threadIds,
                    threadsToSub := g.threadsToSub - 1 }

/-- `Governor::Unsubscribe` (governor_impl.cpp:282-305). -/
def Unsubscribe (g : GovState) (osId : Nat) (ridx : Nat) : Out Unit :=
  match lookupOs osId g.threads with
  | none => .ok () g
  | some st =>
    let g1 : GovState := { g with threads := eraseKey osId g.threads,
                                  threadIds := eraseKey st.threadId g.threadIds }
    match UpdateActiveThread g1 osId ridx with
    | .abort m s => .abort m s
    | .ok _ s => .ok () s

/-- `Governor::ControlPoint` (governor_impl.cpp:307-329), up to the spin
wait (which only reads the active-thread cell). -/
def ControlPoint (g : GovState) (osId : Nat) (ridx : Nat) : Out Unit :=
  match lookupOs osId g.threads with
  | none => .ok () g
  | some _ =>
    let g1 : GovState := { g with threads := setFlag osId true g.threads }
    match UpdateActiveThread g1 osId ridx with
    | .abort m s => .abort m s
    | .ok _ s => .ok () s

/-- `Governor::HandleOutFile(true)` (governor_impl.cpp:540-559): append the
`END` sentinel in writing modes. -/
def HandleOutFileClose (g : GovState) : GovState :=
  if writeMode g.runMode then { g with file := g.file ++ endChars } else g

/-- `Governor::HandleOutFile(false)` (governor_impl.cpp:562-606): in EXPLORE
and PRESET re-read the sequence and the sentinel from position zero; then in
writing modes truncate the file (remap to one zeroed page, `_fileIdx = 0`). -/
def HandleOutFileOpen (g : GovState) : GovState :=
  let g1 :=
    if g.runMode = RunMode.RUN_EXPLORE ∨ g.runMode = RunMode.RUN_PRESET then
      { g with sched := (readSched g.file).1, schedDone := parseEnd (readSched g.file).2 }
    else g
  if writeMode g1.runMode then { g1 with file := [] } else g1

/-- The EXPLORE tail walk of `Reset` (governor_impl.cpp:185-200), expressed
on the reversed sequence: drop trailing exhausted points, then advance the
first retained one. -/
def dfsAdvanceRev : List SchedPoint → List SchedPoint
  | [] => []
  | sp :: rest =>
    if sp.higher = 0 then dfsAdvanceRev rest
    else { sp with threadId := sp.threadId + 1, higher := sp.higher - 1 } :: rest

def dfsAdvance (l : List SchedPoint) : List SchedPoint :=
  (dfsAdvanceRev l.reverse).reverse

/-- The per-mode tail of `Governor::Reset` (governor_impl.cpp:168-220),
applied to the state after the persistence layer was flushed and re-read. -/
def resetDispatch (g2 : GovState) : Out Bool :=
  match g2.runMode with
  | .RUN_RANDOM => .ok true { g2 with schedIdx := 0, sched := [] }
  | .RUN_EXPLORE =>
    let g3 : GovState := { g2 with schedIdx := 0 }
    if !g3.schedDone then .ok true g3
    else
      let g4 : GovState := { g3 with sched := dfsAdvance g3.sched }
      if g4.sched.isEmpty then .abort "RUN_EXPLORE - reached last state" g4
      else .ok true g4
  | .RUN_PRESET => .ok (g2.schedIdx == 0) { g2 with schedIdx := 0 }

/-- `Governor::Reset` (governor_impl.cpp:150-223). -/
def Reset (g : GovState) (force : Bool) : Out Bool :=
  if !force && g.schedIdx == 0 then .ok true g
  else resetDispatch
    (HandleOutFileOpen (if 0 < g.schedIdx then HandleOutFileClose g else g))

/-! ## Concrete states used by the claim theorems -/

/-- The state after a completed 1-thread EXPLORE run whose whole search
space is exhausted: the single recorded decision `(0, 1, 0)` has no
alternatives (`higher = 0`), one decision was consumed (`schedIdx = 1`),
and the record is in the backing file. -/
def c1FailState : GovState :=
  { runMode := RunMode.RUN_EXPLORE, sched := [⟨0, 1, 0⟩], schedIdx := 1,
    schedDone := false, threadsToSub := 0, threads := [(5, ⟨0, true⟩)],
    threadIds := [(0, 5)], activeThreadId := none,
    file := SchedPoint.writeChars ⟨0, 1, 0⟩ }

/-- A PRESET state with an exhausted recorded sequence and a non-empty file. -/
def c5WitState : GovState :=
  { runMode := RunMode.RUN_PRESET, sched := [], schedIdx := 0, schedDone := true,
    threadsToSub := 0, threads := [(5, ⟨0, true⟩)], threadIds := [(0, 5)],
    activeThreadId := none, file := ['x'] }

/-- A PRESET state in which all three reattempt conditions hold but the
recorded sequence is already exhausted, so the chooser aborts. -/
def c2CexState : GovState :=
  { runMode := RunMode.RUN_PRESET, sched := [], schedIdx := 0, schedDone := true,
    threadsToSub := 0, threads := [(5, ⟨0, true⟩)], threadIds := [(0, 5)],
    activeThreadId := none, file := [] }

/-- The EXPLORE state for the C2 witness: one subscribed thread at a fresh
decision point. -/
def c2WitState : GovState :=
  { runMode := RunMode.RUN_EXPLORE, sched := [], schedIdx := 0, schedDone := false,
    threadsToSub := 0, threads := [(5, ⟨0, true⟩)], threadIds := [(0, 5)],
    activeThreadId := none, file := [] }

/-- The state produced by the chooser in the C2 witness run. -/
def c2WitMid : GovState :=
  { runMode := RunMode.RUN_EXPLORE, sched := [⟨0, 1, 0⟩], schedIdx := 1,
    schedDone := false, threadsToSub := 0, threads := [(5, ⟨0, true⟩)],
    threadIds := [(0, 5)], activeThreadId := none,
    file := SchedPoint.writeChars ⟨0, 1, 0⟩ }

/-- EXPLORE at the last stored point `(0,1,0)` with thread id 0 subscribed:
the repair finds id 0 and the lookup succeeds. -/
def c10OkState : GovState :=
  { runMode := RunMode.RUN_EXPLORE, sched := [⟨0, 1, 0⟩], schedIdx := 0,
    schedDone := false, threadsToSub := 0, threads := [(5, ⟨0, true⟩)],
    threadIds := [(0, 5)], activeThreadId := none, file := [] }

/-- EXPLORE at the last stored point `(7,1,0)` while only id 0 is
subscribed: no id is `≥ 7`, the repair leaves 7, the lookup fails. -/
def c10BadState : GovState :=
  { runMode := RunMode.RUN_EXPLORE, sched := [⟨7, 1, 0⟩], schedIdx := 0,
    schedDone := false, threadsToSub := 0, threads := [(5, ⟨0, true⟩)],
    threadIds := [(0, 5)], activeThreadId := none, file := [] }

/-! ## The C3 invariant: `higher < available` -/

/-- Every stored point has `higher < available`. -/
def goodSched (l : List SchedPoint) : Bool :=
  l.all fun sp => sp.higher < sp.available

/-- The `_threadIds` map is sorted by strictly ascending key (the `std::map`
representation invariant). -/
def sortedByKey : List (Nat × Nat) → Bool
  | [] => true
  | [_] => true
  | p :: q :: rest => p.1 < q.1 && sortedByKey (q :: rest)

/-- Invariant on the backing file: in PRESET the parsed records are good; in
the writing modes the file is the exact serialization of a good record list
(the run's decisions so far, no sentinel until close). -/
def FileInv (g : GovState) : Prop :=
  (g.runMode = RunMode.RUN_PRESET → goodSched (readSched g.file).1 = true) ∧
  (g.runMode ≠ RunMode.RUN_PRESET → ∃ L, g.file = writeRecs L ∧ goodSched L = true)

/-- The state invariant of claim C3. -/
def SchedInv (g : GovState) : Prop := goodSched g.sched = true ∧ FileInv g

/-- A well-formed EXPLORE state used to witness C3. -/
def c3WitState : GovState :=
  { runMode := RunMode.RUN_EXPLORE, sched := [⟨0, 2, 1⟩], schedIdx := 0,
    schedDone := false, threadsToSub := 0,
    threads := [(5, ⟨0, true⟩), (6, ⟨1, true⟩)], threadIds := [(0, 5), (1, 6)],
    activeThreadId := none, file := [] }

/-! ## Theorems -/

/-! ### Round-trip lemmas -/

theorem digitsVal_append (ds : List Char) (c : Char) :
    digitsVal (ds ++ [c]) = digitsVal ds * 10 + digitVal c := by
  simp [digitsVal, List.foldl_append]

theorem natCharsAux_acc (fuel n : Nat) (acc : List Char) :
    natCharsAux fuel n acc = natCharsAux fuel n [] ++ acc := by
  induction fuel generalizing n acc with
  | zero => simp [natCharsAux]
  | succ fuel ih =>
    by_cases h : n < 10
    · simp [natCharsAux, h]
    · rw [natCharsAux, natCharsAux, if_neg h, if_neg h,
        ih (n / 10) (digitChar (n % 10) :: acc), ih (n / 10) [digitChar (n % 10)]]
      simp

theorem natCharsAux_fuel (fuel fuel' n : Nat) (hf : n < fuel) (hf' : n < fuel') :
    natCharsAux fuel n [] = natCharsAux fuel' n [] := by
  induction n using Nat.strong_induction_on generalizing fuel fuel' with
  | _ n ih =>
    match fuel, fuel' with
    | f + 1, f' + 1 =>
      by_cases h : n < 10
      · simp [natCharsAux, h]
      · have hd : n / 10 < n := Nat.div_lt_self (by omega) (by omega)
        rw [natCharsAux, natCharsAux, if_neg h, if_neg h,
          natCharsAux_acc f, natCharsAux_acc f',
          ih (n / 10) hd f f' (by omega) (by omega)]

theorem natChars_ge (n : Nat) (h : 10 ≤ n) :
    natChars n = natChars (n / 10) ++ [digitChar (n % 10)] := by
  have hd : n / 10 < n := Nat.div_lt_self (by omega) (by omega)
  rw [natChars, natChars, natCharsAux, if_neg (by omega),
    natCharsAux_acc, natCharsAux_fuel n (n / 10 + 1) (n / 10) hd (Nat.lt_succ_self _)]

theorem natChars_lt (n : Nat) (h : n < 10) : natChars n = [digitChar n] := by
  rw [natChars, natCharsAux, if_pos h]

theorem digitChar_isDigit (n : Nat) (h : n < 10) : (digitChar n).isDigit = true := by
  interval_cases n <;> decide

theorem digitVal_digitChar (n : Nat) (h : n < 10) : digitVal (digitChar n) = n := by
  interval_cases n <;> decide

theorem natChars_ne_nil (n : Nat) : natChars n ≠ [] := by
  by_cases h : n < 10
  · rw [natChars_lt n h]; simp
  · rw [natChars_ge n (by omega)]; simp

theorem natChars_digits (n : Nat) : ∀ c ∈ natChars n, c.isDigit = true := by
  induction n using Nat.strong_induction_on with
  | _ n ih =>
    by_cases h : n < 10
    · rw [natChars_lt n h]
      intro c hc
      rw [List.mem_singleton.mp hc]
      exact digitChar_isDigit n h
    · rw [natChars_ge n (by omega)]
      intro c hc
      rcases List.mem_append.mp hc with h1 | h2
      · exact ih (n / 10) (Nat.div_lt_self (by omega) (by omega)) c h1
      · rw [List.mem_singleton.mp h2]
        exact digitChar_isDigit (n % 10) (Nat.mod_lt _ (by omega))

theorem digitsVal_natChars (n : Nat) : digitsVal (natChars n) = n := by
  induction n using Nat.strong_induction_on with
  | _ n ih =>
    by_cases h : n < 10
    · rw [natChars_lt n h]
      simp [digitsVal, digitVal_digitChar n h]
    · rw [natChars_ge n (by omega), digitsVal_append,
        ih (n / 10) (Nat.div_lt_self (by omega) (by omega)),
        digitVal_digitChar (n % 10) (Nat.mod_lt _ (by omega))]
      omega

theorem isDigit_not_ws (c : Char) (h : c.isDigit = true) : isWsChar c = false := by
  rcases Bool.eq_false_or_eq_true (isWsChar c) with ht | hf
  · exfalso
    unfold isWsChar at ht
    simp only [Bool.or_eq_true, decide_eq_true_eq] at ht
    rcases ht with ((((rfl | rfl) | rfl) | rfl) | rfl) | rfl <;> exact absurd h (by decide)
  · exact hf

theorem span_append (p : Char → Bool) (ds r : List Char)
    (hds : ∀ c ∈ ds, p c = true) (hr : notAt p r = true) :
    (ds ++ r).takeWhile p = ds ∧ (ds ++ r).dropWhile p = r := by
  induction ds with
  | nil =>
    match r with
    | [] => exact ⟨rfl, rfl⟩
    | c :: r' =>
      have hc : p c = false := by simpa [notAt] using hr
      simp [List.takeWhile, List.dropWhile, hc]
  | cons d ds ih =>
    have hd : p d = true := hds d (List.mem_cons_self d ds)
    have := ih (fun c hc => hds c (List.mem_cons_of_mem d hc))
    simp [List.takeWhile, List.dropWhile, hd, this.1, this.2]

theorem skipWs_of_notAt (cs : List Char) (h : notAt isWsChar cs = true) :
    skipWs cs = cs := by
  match cs with
  | [] => rfl
  | c :: cs' =>
    have hc : isWsChar c = false := by simpa [notAt] using h
    simp [skipWs, List.dropWhile, hc]

theorem skipWs_cons_ws (c : Char) (cs : List Char) (h : isWsChar c = true) :
    skipWs (c :: cs) = skipWs cs := by
  simp [skipWs, List.dropWhile, h]

theorem notAt_ws_natChars (n : Nat) (r : List Char) :
    notAt isWsChar (natChars n ++ r) = true := by
  have hne := natChars_ne_nil n
  match hcs : natChars n with
  | [] => exact absurd hcs hne
  | d :: ds =>
    have hd : d.isDigit = true := by
      have := natChars_digits n
      rw [hcs] at this
      exact this d (List.mem_cons_self d ds)
    simp [notAt, isDigit_not_ws d hd]

theorem parseNat_natChars (n : Nat) (r : List Char) (hr : notAt Char.isDigit r = true) :
    parseNat (natChars n ++ r) = some (n, r) := by
  have hspan := span_append Char.isDigit (natChars n) r (natChars_digits n) hr
  rw [parseNat, hspan.1, hspan.2]
  simp [List.isEmpty_iff, natChars_ne_nil n, digitsVal_natChars n]

theorem stopper_notAt_ws (r : List Char) (hr : stopper r = true) :
    notAt isWsChar r = true := by
  match r with
  | [] => rfl
  | c :: r' =>
    simp only [stopper, Bool.and_eq_true] at hr
    simpa [notAt] using hr.1

theorem readChars_writeChars (sp : SchedPoint) (r : List Char)
    (hrw : notAt isWsChar r = true) :
    SchedPoint.readChars (sp.writeChars ++ r) = some (sp, r) := by
  have hassoc : sp.writeChars ++ r =
      natChars sp.threadId ++ (' ' :: (natChars sp.available ++
        (' ' :: (natChars sp.higher ++ ('\n' :: r))))) := by
    simp [SchedPoint.writeChars]
  rw [hassoc]
  simp only [SchedPoint.readChars,
    skipWs_of_notAt _ (notAt_ws_natChars sp.threadId
      (' ' :: (natChars sp.available ++ (' ' :: (natChars sp.higher ++ ('\n' :: r)))))),
    parseNat_natChars sp.threadId
      (' ' :: (natChars sp.available ++ (' ' :: (natChars sp.higher ++ ('\n' :: r))))) rfl,
    Option.some_bind]
  simp only [skipWs_cons_ws ' '
      (natChars sp.available ++ (' ' :: (natChars sp.higher ++ ('\n' :: r)))) (by decide),
    skipWs_of_notAt _ (notAt_ws_natChars sp.available
      (' ' :: (natChars sp.higher ++ ('\n' :: r)))),
    parseNat_natChars sp.available (' ' :: (natChars sp.higher ++ ('\n' :: r))) rfl,
    Option.some_bind]
  simp only [skipWs_cons_ws ' ' (natChars sp.higher ++ ('\n' :: r)) (by decide),
    skipWs_of_notAt _ (notAt_ws_natChars sp.higher ('\n' :: r)),
    parseNat_natChars sp.higher ('\n' :: r) rfl,
    Option.some_bind]
  rw [skipWs_cons_ws '\n' r (by decide), skipWs_of_notAt r hrw]

theorem readChars_stopper (r : List Char) (hr : stopper r = true) :
    SchedPoint.readChars r = none := by
  match r with
  | [] => rfl
  | c :: r' =>
    simp only [stopper, Bool.and_eq_true, Bool.not_eq_true'] at hr
    have hskip : skipWs (c :: r') = c :: r' :=
      skipWs_of_notAt _ (by simp [notAt, hr.1])
    have hp : parseNat (c :: r') = none := by
      rw [parseNat]
      have ht : List.takeWhile Char.isDigit (c :: r') = [] := by
        simp [List.takeWhile_cons, hr.2]
      simp [ht]
    rw [SchedPoint.readChars, hskip, hp, Option.none_bind]

theorem writeChars_ne_nil (sp : SchedPoint) : sp.writeChars ≠ [] := by
  simp only [SchedPoint.writeChars]
  intro h
  exact natChars_ne_nil sp.threadId (List.append_eq_nil.mp h).1

theorem writeChars_head_digit (sp : SchedPoint) (x : List Char) :
    notAt isWsChar (sp.writeChars ++ x) = true := by
  have : sp.writeChars ++ x =
      natChars sp.threadId ++ (' ' :: (natChars sp.available ++
        (' ' :: (natChars sp.higher ++ ('\n' :: x))))) := by
    simp [SchedPoint.writeChars]
  rw [this]
  exact notAt_ws_natChars sp.threadId _

theorem notAt_ws_writeRecs (l : List SchedPoint) (r : List Char)
    (hr : stopper r = true) : notAt isWsChar (writeRecs l ++ r) = true := by
  match l with
  | [] =>
    have : writeRecs [] ++ r = r := by simp [writeRecs]
    rw [this]
    exact stopper_notAt_ws r hr
  | sp :: l' =>
    have : writeRecs (sp :: l') ++ r = sp.writeChars ++ (writeRecs l' ++ r) := by
      simp [writeRecs]
    rw [this]
    exact writeChars_head_digit sp _

theorem readSchedAux_flat (l : List SchedPoint) (r : List Char) :
    ∀ fuel, l.length ≤ fuel → stopper r = true →
      readSchedAux fuel (writeRecs l ++ r) = (l, r) := by
  induction l with
  | nil =>
    intro fuel _ hr
    match fuel with
    | 0 => simp [readSchedAux, writeRecs]
    | fuel + 1 => simp [readSchedAux, writeRecs, readChars_stopper r hr]
  | cons sp l ih =>
    intro fuel hlen hr
    match fuel with
    | 0 => exact absurd hlen (by simp)
    | fuel + 1 =>
      have hflat : writeRecs (sp :: l) ++ r = sp.writeChars ++ (writeRecs l ++ r) := by
        simp [writeRecs]
      rw [hflat]
      simp only [readSchedAux,
        readChars_writeChars sp (writeRecs l ++ r) (notAt_ws_writeRecs l r hr),
        ih fuel (by simpa using hlen) hr]

theorem length_le_writeRecs (l : List SchedPoint) :
    l.length ≤ (writeRecs l).length := by
  induction l with
  | nil => simp [writeRecs]
  | cons sp l ih =>
    have : writeRecs (sp :: l) = sp.writeChars ++ writeRecs l := by simp [writeRecs]
    rw [this, List.length_cons, List.length_append]
    have hpos : 0 < sp.writeChars.length :=
      List.length_pos.mpr (writeChars_ne_nil sp)
    omega

theorem readSched_flat (l : List SchedPoint) (r : List Char) (hr : stopper r = true) :
    readSched (writeRecs l ++ r) = (l, r) := by
  apply readSchedAux_flat l r _ _ hr
  calc l.length ≤ (writeRecs l).length := length_le_writeRecs l
    _ ≤ (writeRecs l ++ r).length := by simp

theorem readSched_flat_nil (l : List SchedPoint) :
    readSched (writeRecs l) = (l, []) := by
  have := readSched_flat l [] (by decide)
  simpa using this

theorem handleRead_writeSeq (l : List SchedPoint) :
    handleRead (writeSeq l) = (l, true) := by
  simp only [handleRead, writeSeq, readSched_flat l endChars (by decide)]
  rfl

theorem readSched_concrete :
    readSched ['0', ' ', '1', ' ', '0', '\n', 'E', 'N', 'D', '\n'] =
      ([⟨0, 1, 0⟩], ['E', 'N', 'D', '\n']) := by decide

theorem handleRead_concrete :
    handleRead (writeSeq [⟨1, 2, 0⟩, ⟨0, 1, 0⟩]) = ([⟨1, 2, 0⟩, ⟨0, 1, 0⟩], true) := by
  decide

/-! ## Helper lemmas about the state operations -/

theorem hofClose_runMode (g : GovState) : (HandleOutFileClose g).runMode = g.runMode := by
  rw [HandleOutFileClose]
  split <;> rfl

theorem hofClose_schedIdx (g : GovState) : (HandleOutFileClose g).schedIdx = g.schedIdx := by
  rw [HandleOutFileClose]
  split <;> rfl

theorem hofOpen_runMode (g : GovState) : (HandleOutFileOpen g).runMode = g.runMode := by
  rw [HandleOutFileOpen]
  split <;> split <;> rfl

theorem hofOpen_schedIdx (g : GovState) : (HandleOutFileOpen g).schedIdx = g.schedIdx := by
  rw [HandleOutFileOpen]
  split <;> split <;> rfl

theorem lookupOs_insertOs (k : Nat) (v : ThreadState) (l : List (Nat × ThreadState)) :
    lookupOs k (insertOs k v l) = some v := by
  induction l with
  | nil => simp [insertOs, lookupOs]
  | cons p rest ih =>
    by_cases h : p.1 = k
    · simp [insertOs, lookupOs, h]
    · simp [insertOs, lookupOs, h, ih]

theorem lookupTid_insertTid (k v : Nat) (l : List (Nat × Nat)) :
    lookupTid k (insertTid k v l) = some v := by
  induction l with
  | nil => simp [insertTid, lookupTid]
  | cons p rest ih =>
    rcases Nat.lt_trichotomy k p.1 with hlt | heq | hgt
    · simp [insertTid, lookupTid, hlt]
    · simp [insertTid, lookupTid, heq, Nat.lt_irrefl]
    · have h1 : ¬k < p.1 := by omega
      have h2 : ¬k = p.1 := by omega
      have h3 : ¬p.1 = k := by omega
      simp [insertTid, lookupTid, h1, h2, h3, ih]

/-! ## Claims -/

/-- C6: serialising any sequence `S` of SchedPoints in order with
`SchedPoint::write`, appending the `END` sentinel, and parsing the result
from position zero with `SchedPoint::read` until a record fails to parse
followed by the sentinel check, yields exactly `S` back in order and sets
`schedDone` to true. -/
theorem c6_serialization_roundtrip (S : List SchedPoint) :
    handleRead (writeSeq S) = (S, true) :=
  handleRead_writeSeq S

/-- C7: whenever `schedIdx = 0`, `Reset(false)` returns true and leaves the
whole governor state (sequence, cursor, done flag, registry, expected count,
active cell, backing file) unchanged, so two consecutive `Reset(false)`
calls with no intervening scheduling are equivalent to one. -/
theorem c7_reset_noop_idempotent (g : GovState) (h : g.schedIdx = 0) :
    Reset g false = Out.ok true g ∧
      Reset (Reset g false).state false = Reset g false := by
  have h1 : Reset g false = Out.ok true g := by
    rw [Reset]
    simp [h]
  refine ⟨h1, ?_⟩
  rw [h1]
  exact h1

/-- Closed witness for C7. -/
theorem c7_witness :
    Reset
        { runMode := RunMode.RUN_EXPLORE, sched := [⟨0, 2, 1⟩], schedIdx := 0,
          schedDone := true, threadsToSub := 0, threads := [(5, ⟨0, false⟩)],
          threadIds := [(0, 5)], activeThreadId := some 5, file := [] } false =
      Out.ok true
        { runMode := RunMode.RUN_EXPLORE, sched := [⟨0, 2, 1⟩], schedIdx := 0,
          schedDone := true, threadsToSub := 0, threads := [(5, ⟨0, false⟩)],
          threadIds := [(0, 5)], activeThreadId := some 5, file := [] } :=
  (c7_reset_noop_idempotent _ rfl).1

/-- C4: in PRESET mode `Reset` zeroes `schedIdx` and returns true exactly
when `schedIdx` was zero on entry (true before any decision was consumed,
false after scheduling has occurred), enforcing that the recorded sequence
is run exactly once. -/
theorem c4_preset_reset_once (g : GovState) (force : Bool)
    (h : g.runMode = RunMode.RUN_PRESET) :
    ∃ g', Reset g force = Out.ok (g.schedIdx == 0) g' ∧ g'.schedIdx = 0 := by
  by_cases h0 : (!force && g.schedIdx == 0) = true
  · rw [Reset, if_pos h0]
    have hz : g.schedIdx = 0 := by
      have := (Bool.and_eq_true _ _).mp h0
      simpa using this.2
    exact ⟨g, by rw [hz]; rfl, hz⟩
  · have h0' : (!force && g.schedIdx == 0) = false := by
      rcases Bool.eq_false_or_eq_true (!force && g.schedIdx == 0) with ht | hf
      · exact absurd ht h0
      · exact hf
    have hrm : (HandleOutFileOpen (if 0 < g.schedIdx then HandleOutFileClose g else g)).runMode
        = RunMode.RUN_PRESET := by
      rw [hofOpen_runMode]
      split
      · rw [hofClose_runMode, h]
      · exact h
    have hsi : (HandleOutFileOpen (if 0 < g.schedIdx then HandleOutFileClose g else g)).schedIdx
        = g.schedIdx := by
      rw [hofOpen_schedIdx]
      split
      · rw [hofClose_schedIdx]
      · rfl
    refine ⟨{ HandleOutFileOpen (if 0 < g.schedIdx then HandleOutFileClose g else g) with
              schedIdx := 0 }, ?_, rfl⟩
    simp only [Reset, resetDispatch, h0', hrm, hsi, Bool.false_eq_true, if_false]

/-- Closed witness for C4: a second `Reset` after one consumed decision
returns false and re-zeroes the cursor. -/
theorem c4_witness :
    ∃ g', Reset { runMode := RunMode.RUN_PRESET, sched := [⟨0, 1, 0⟩], schedIdx := 1,
                  schedDone := true, threadsToSub := 0, threads := [(5, ⟨0, false⟩)],
                  threadIds := [(0, 5)], activeThreadId := none, file := [] } false =
        Out.ok (1 == 0) g' ∧ g'.schedIdx = 0 :=
  c4_preset_reset_once _ false rfl

/-- C9: `Unsubscribe` by a thread that is not subscribed emits no diagnostic
(diagnostics arise only on `abort` outcomes) and returns with every
component of the state unchanged. -/
theorem c9_unsubscribe_unsubscribed_noop (g : GovState) (osId ridx : Nat)
    (h : lookupOs osId g.threads = none) :
    Unsubscribe g osId ridx = Out.ok () g := by
  rw [Unsubscribe, h]

/-- Closed witness for C9. -/
theorem c9_witness :
    Unsubscribe { runMode := RunMode.RUN_RANDOM, sched := [], schedIdx := 0,
                  schedDone := false, threadsToSub := 2, threads := [(4, ⟨1, true⟩)],
                  threadIds := [(1, 4)], activeThreadId := none, file := [] } 9 0 =
      Out.ok () { runMode := RunMode.RUN_RANDOM, sched := [], schedIdx := 0,
                  schedDone := false, threadsToSub := 2, threads := [(4, ⟨1, true⟩)],
                  threadIds := [(1, 4)], activeThreadId := none, file := [] } :=
  c9_unsubscribe_unsubscribed_noop _ 9 0 (by decide)

/-- C8: `Subscribe(threadId)` refuses (diagnostic, registry and expected
count untouched) exactly when the caller is already subscribed, or the
expected-subscriber count is zero, or the id is already in use; otherwise it
records `ThreadState(threadId, false)` for the caller in both registry views
and decrements the expected count. -/
theorem c8_subscribe_guards (g : GovState) (osId tid : Nat) :
    ((Subscribe g osId tid).isAbort = true ↔
      ((lookupOs osId g.threads).isSome = true ∨ g.threadsToSub = 0 ∨
        (g.threads.any fun p => p.2.threadId == tid) = true)) ∧
    (∀ m s, Subscribe g osId tid = Out.abort m s → s = g) ∧
    ((Subscribe g osId tid).isAbort = false →
      ∃ g', Subscribe g osId tid = Out.ok () g' ∧
        lookupOs osId g'.threads = some ⟨tid, false⟩ ∧
        lookupTid tid g'.threadIds = some osId ∧
        g'.threadsToSub = g.threadsToSub - 1) := by
  by_cases h1 : (lookupOs osId g.threads).isSome = true
  · rw [Subscribe, if_pos h1]
    refine ⟨by simp [Out.isAbort, h1], ?_, by simp [Out.isAbort]⟩
    intro m s he
    injection he with hm hs
    exact hs.symm
  · by_cases h2 : g.threadsToSub = 0
    · rw [Subscribe, if_neg h1, if_pos h2]
      refine ⟨by simp [Out.isAbort, h2], ?_, by simp [Out.isAbort]⟩
      intro m s he
      injection he with hm hs
      exact hs.symm
    · by_cases h3 : (g.threads.any fun p => p.2.threadId == tid) = true
      · rw [Subscribe, if_neg h1, if_neg h2, if_pos h3]
        refine ⟨by simp [Out.isAbort, h3], ?_, by simp [Out.isAbort]⟩
        intro m s he
        injection he with hm hs
        exact hs.symm
      · rw [Subscribe, if_neg h1, if_neg h2, if_neg h3]
        refine ⟨by simp [Out.isAbort, h1, h2, h3], ?_, ?_⟩
        · intro m s he
          exact Out.noConfusion he
        · intro _
          exact ⟨_, rfl, lookupOs_insertOs osId _ g.threads,
            lookupTid_insertTid tid osId g.threadIds, rfl⟩

/-- Closed witness for C8: a successful subscription on an empty registry. -/
theorem c8_witness :
    ∃ g', Subscribe { runMode := RunMode.RUN_RANDOM, sched := [], schedIdx := 0,
                      schedDone := false, threadsToSub := 2, threads := [],
                      threadIds := [], activeThreadId := none, file := [] } 7 3 =
        Out.ok () g' ∧
      lookupOs 7 g'.threads = some ⟨3, false⟩ ∧
      lookupTid 3 g'.threadIds = some 7 ∧
      g'.threadsToSub = 2 - 1 :=
  (c8_subscribe_guards _ 7 3).2.2 (by decide)

/-! ## C1: EXPLORE exhaustion in `Reset` -/

/-- C1: on search exhaustion (`schedDone` becomes true after re-reading the
sentinel-terminated file, and the tail walk pops every entry, emptying the
sequence) `Governor::Reset` in `governor_impl.cpp` emits the
`"RUN_EXPLORE - reached last state"` diagnostic and calls `std::abort()`
instead of returning false as its own header documentation
(`governor_impl.h`: "Reset() returns false if there are no more schedule
sequences to explore"), the spec, and this claim describe. -/
theorem c1_explore_exhaustion_aborts :
    (Reset c1FailState false).isAbort = true ∧
    (Reset c1FailState false).state.sched = [] ∧
    (Reset c1FailState false).state.schedDone = true := by
  decide

/-! ## C5: PRESET strict replay and read-only file -/

theorem writeMode_false_iff (m : RunMode) :
    writeMode m = false ↔ m = RunMode.RUN_PRESET := by
  cases m <;> simp [writeMode]

theorem fileAppend_preset (g : GovState) (cs : List Char)
    (h : g.runMode = RunMode.RUN_PRESET) : fileAppend g cs = g := by
  rw [fileAppend, if_neg]
  rw [Bool.not_eq_true, writeMode_false_iff]
  exact h

theorem chooseFinish_file_preset (g : GovState) (sp : SchedPoint)
    (h : g.runMode = RunMode.RUN_PRESET) :
    (chooseFinish g sp).state.file = g.file := by
  rw [chooseFinish]
  split
  · rfl
  · simp [Out.state, fileAppend_preset _ _ h]

theorem chooseThread_file_preset (g : GovState) (h : g.runMode = RunMode.RUN_PRESET)
    (mode : RunMode) (r : Nat) : (ChooseThread g mode r).state.file = g.file := by
  cases mode with
  | RUN_RANDOM =>
    simp only [ChooseThread]
    split
    · rfl
    · exact chooseFinish_file_preset _ _ h
  | RUN_EXPLORE =>
    simp only [ChooseThread]
    split
    · rfl
    · split
      · rfl
      · split
        · exact chooseFinish_file_preset _ _ h
        · exact chooseFinish_file_preset _ _ h
  | RUN_PRESET =>
    simp only [ChooseThread]
    split
    · rfl
    · split
      · rfl
      · split
        · rfl
        · split
          · rfl
          · split
            · rfl
            · exact chooseFinish_file_preset _ _ h

theorem updateActive_file_preset (g : GovState) (h : g.runMode = RunMode.RUN_PRESET)
    (osId r : Nat) : (UpdateActiveThread g osId r).state.file = g.file := by
  simp only [UpdateActiveThread]
  have hg0rm : (clearSelf g osId).runMode = RunMode.RUN_PRESET := by
    rw [clearSelf]
    split <;> exact h
  have hg0f : (clearSelf g osId).file = g.file := by
    rw [clearSelf]
    split <;> rfl
  split
  · exact hg0f
  · split
    · exact hg0f
    · split
      · exact hg0f
      · have hct := chooseThread_file_preset (clearSelf g osId) hg0rm
          (clearSelf g osId).runMode r
        cases hc : ChooseThread (clearSelf g osId) (clearSelf g osId).runMode r with
        | abort m s =>
          rw [hc] at hct
          simp only [Out.state] at hct
          simpa [Out.state] using hct.trans hg0f
        | ok os gc =>
          rw [hc] at hct
          simp only [Out.state] at hct
          cases hlk : lookupOs os gc.threads with
          | none =>
            simp only [hlk]
            simpa [Out.state] using hct.trans hg0f
          | some st =>
            simp only [hlk]
            simpa [Out.state] using hct.trans hg0f

theorem hofClose_preset (g : GovState) (h : g.runMode = RunMode.RUN_PRESET) :
    HandleOutFileClose g = g := by
  rw [HandleOutFileClose, if_neg]
  rw [Bool.not_eq_true, writeMode_false_iff]
  exact h

theorem hofOpen_file_preset (g : GovState) (h : g.runMode = RunMode.RUN_PRESET) :
    (HandleOutFileOpen g).file = g.file := by
  have hwf : writeMode g.runMode = false := (writeMode_false_iff _).mpr h
  rw [HandleOutFileOpen]
  split
  · rw [if_neg (by simp [hwf])]
  · rw [if_neg (by simp [hwf])]

theorem subscribe_file (g : GovState) (os tid : Nat) :
    (Subscribe g os tid).state.file = g.file := by
  rw [Subscribe]
  split
  · rfl
  · split
    · rfl
    · split
      · rfl
      · rfl

theorem unsubscribe_file_preset (g : GovState) (h : g.runMode = RunMode.RUN_PRESET)
    (osId r : Nat) : (Unsubscribe g osId r).state.file = g.file := by
  simp only [Unsubscribe]
  cases hlk : lookupOs osId g.threads with
  | none =>
    simp only [hlk]
    rfl
  | some st =>
    simp only [hlk]
    have hu := updateActive_file_preset
      { g with threads := eraseKey osId g.threads,
               threadIds := eraseKey st.threadId g.threadIds } h osId r
    cases hc : UpdateActiveThread
        { g with threads := eraseKey osId g.threads,
                 threadIds := eraseKey st.threadId g.threadIds } osId r with
    | abort m s =>
      rw [hc] at hu
      simp only [hc]
      simpa [Out.state] using hu
    | ok b s =>
      rw [hc] at hu
      simp only [hc]
      simpa [Out.state] using hu

theorem controlPoint_file_preset (g : GovState) (h : g.runMode = RunMode.RUN_PRESET)
    (osId r : Nat) : (ControlPoint g osId r).state.file = g.file := by
  simp only [ControlPoint]
  cases hlk : lookupOs osId g.threads with
  | none =>
    simp only [hlk]
    rfl
  | some st =>
    simp only [hlk]
    have hu := updateActive_file_preset
      { g with threads := setFlag osId true g.threads } h osId r
    cases hc : UpdateActiveThread { g with threads := setFlag osId true g.threads } osId r with
    | abort m s =>
      rw [hc] at hu
      simp only [hc]
      simpa [Out.state] using hu
    | ok b s =>
      rw [hc] at hu
      simp only [hc]
      simpa [Out.state] using hu

theorem reset_file_preset (g : GovState) (h : g.runMode = RunMode.RUN_PRESET) (f : Bool) :
    (Reset g f).state.file = g.file := by
  by_cases h0 : (!f && g.schedIdx == 0) = true
  · rw [Reset, if_pos h0]
    rfl
  · have h0' : (!f && g.schedIdx == 0) = false := by
      rcases Bool.eq_false_or_eq_true (!f && g.schedIdx == 0) with ht | hf
      · exact absurd ht h0
      · exact hf
    have hg1 : (if 0 < g.schedIdx then HandleOutFileClose g else g) = g := by
      split
      · exact hofClose_preset g h
      · rfl
    have hrm : (HandleOutFileOpen g).runMode = RunMode.RUN_PRESET := by
      rw [hofOpen_runMode]
      exact h
    simp only [Reset, resetDispatch, h0', Bool.false_eq_true, if_false, hg1, hrm]
    simpa [Out.state] using hofOpen_file_preset g h

/-- In PRESET mode, any of the four consistency violations makes
`ChooseThread` emit a diagnostic and abort. -/
theorem preset_mismatch_aborts (g : GovState) (r : Nat)
    (hd : g.sched.length ≤ g.schedIdx ∨
      lookupTid (g.sched.getD g.schedIdx ⟨0, 0, 0⟩).threadId g.threadIds = none ∨
      (g.sched.getD g.schedIdx ⟨0, 0, 0⟩).available ≠ g.threadIds.length ∨
      (g.sched.getD g.schedIdx ⟨0, 0, 0⟩).higher ≠
        countGreater (g.sched.getD g.schedIdx ⟨0, 0, 0⟩).threadId g.threadIds) :
    (ChooseThread g RunMode.RUN_PRESET r).isAbort = true := by
  simp only [ChooseThread]
  split
  · rfl
  · split
    · rfl
    · rename_i hlen
      cases hl : lookupTid (g.sched.getD g.schedIdx ⟨0, 0, 0⟩).threadId g.threadIds with
      | none =>
        simp only [hl]
        rfl
      | some os =>
        simp only [hl]
        split
        · rfl
        · rename_i hav
          split
          · rfl
          · rename_i hhi
            exfalso
            rcases hd with d1 | d2 | d3 | d4
            · exact hlen d1
            · rw [hl] at d2
              exact Option.noConfusion d2
            · exact hav d3
            · exact hhi d4

/-- C5: in PRESET mode, when a decision is consumed with the cursor at or
past the end of the sequence, or a recorded `threadId` that is not
subscribed, or a recorded `available` different from the registry size, or a
recorded `higher` different from the current count of greater ids, a
diagnostic is emitted and the process aborts; and no operation in PRESET
mode ever writes to the backing file. -/
theorem c5_preset_strict_readonly (g : GovState) (ridx : Nat)
    (h : g.runMode = RunMode.RUN_PRESET) :
    ((g.sched.length ≤ g.schedIdx ∨
        lookupTid (g.sched.getD g.schedIdx ⟨0, 0, 0⟩).threadId g.threadIds = none ∨
        (g.sched.getD g.schedIdx ⟨0, 0, 0⟩).available ≠ g.threadIds.length ∨
        (g.sched.getD g.schedIdx ⟨0, 0, 0⟩).higher ≠
          countGreater (g.sched.getD g.schedIdx ⟨0, 0, 0⟩).threadId g.threadIds) →
      (ChooseThread g RunMode.RUN_PRESET ridx).isAbort = true) ∧
    (∀ mode r2, (ChooseThread g mode r2).state.file = g.file) ∧
    (∀ n, (Prepare g n).file = g.file) ∧
    (∀ os tid, (Subscribe g os tid).state.file = g.file) ∧
    (∀ os r2, (Unsubscribe g os r2).state.file = g.file) ∧
    (∀ os r2, (ControlPoint g os r2).state.file = g.file) ∧
    (∀ f, (Reset g f).state.file = g.file) :=
  ⟨fun hd => preset_mismatch_aborts g ridx hd,
   fun mode r2 => chooseThread_file_preset g h mode r2,
   fun _ => rfl,
   fun os tid => subscribe_file g os tid,
   fun os r2 => unsubscribe_file_preset g h os r2,
   fun os r2 => controlPoint_file_preset g h os r2,
   fun f => reset_file_preset g h f⟩

/-- Closed witness for C5: replay past the end of the sequence aborts, and a
forced `Reset` leaves the file untouched. -/
theorem c5_witness :
    (ChooseThread c5WitState RunMode.RUN_PRESET 0).isAbort = true ∧
    (Reset c5WitState true).state.file = c5WitState.file :=
  ⟨(c5_preset_strict_readonly c5WitState 0 rfl).1 (Or.inl (by decide)),
   (c5_preset_strict_readonly c5WitState 0 rfl).2.2.2.2.2.2 true⟩

/-! ## C2: the Chooser reattempt (`UpdateActiveThread`) -/

theorem clearSelf_threadsToSub (g : GovState) (osId : Nat) :
    (clearSelf g osId).threadsToSub = g.threadsToSub := by
  rw [clearSelf]
  split <;> rfl

theorem clearSelf_threads (g : GovState) (osId : Nat) :
    (clearSelf g osId).threads = g.threads := by
  rw [clearSelf]
  split <;> rfl

theorem any_not_flag_eq (l : List (Nat × ThreadState)) :
    (l.any fun p => !p.2.isInControlPoint) = !(l.all fun p => p.2.isInControlPoint) := by
  induction l with
  | nil => rfl
  | cons p rest ih =>
    cases hb : p.2.isInControlPoint <;> simp [List.any_cons, List.all_cons, hb, ih]

/-- C2 counterexample: the expected-subscriber count is zero, every
subscribed thread's `isInControlPoint` flag is true, and the registry is
non-empty, yet `UpdateActiveThread` aborts the process (PRESET replay past
the end of the recording) instead of clearing a chosen thread's flag and
returning true as the claim states. -/
theorem c2_counterexample :
    c2CexState.threadsToSub = 0 ∧
    (c2CexState.threads.all fun p => p.2.isInControlPoint) = true ∧
    c2CexState.threads.isEmpty = false ∧
    (UpdateActiveThread c2CexState 5 0).isAbort = true := by
  decide

/-- C2 (amended): the reattempt returns false and selects no thread (the
cell is at most cleared to the sentinel) unless the expected-subscriber
count is zero, every subscribed thread's flag is true, and the registry is
non-empty; when the three conditions hold **and the mode-specific selection
completes without aborting the process** (PRESET consistency failures and
the EXPLORE repair miss abort instead), it clears the chosen thread's
`isInControlPoint` flag, stores that thread's opaque identity in the
active-thread cell, and returns true. -/
theorem c2_update_active_guards (g : GovState) (osId ridx : Nat) :
    (¬(g.threadsToSub = 0 ∧ (g.threads.all fun p => p.2.isInControlPoint) = true ∧
        g.threads.isEmpty = false) →
      UpdateActiveThread g osId ridx = Out.ok false (clearSelf g osId)) ∧
    ((g.threadsToSub = 0 ∧ (g.threads.all fun p => p.2.isInControlPoint) = true ∧
        g.threads.isEmpty = false) →
      ∀ os' g', ChooseThread (clearSelf g osId) (clearSelf g osId).runMode ridx =
          Out.ok os' g' →
        (lookupOs os' g'.threads).isSome = true →
        UpdateActiveThread g osId ridx =
          Out.ok true { g' with threads := setFlag os' false g'.threads,
                                activeThreadId := some os' }) := by
  constructor
  · intro hn
    simp only [UpdateActiveThread, clearSelf_threadsToSub, clearSelf_threads,
      any_not_flag_eq]
    by_cases h1 : g.threadsToSub = 0
    · rw [if_neg (by omega)]
      by_cases h2 : (g.threads.all fun p => p.2.isInControlPoint) = true
      · rw [h2]
        simp only [Bool.not_true, Bool.false_eq_true, if_false]
        have h3 : g.threads.isEmpty = true := by
          rcases Bool.eq_false_or_eq_true g.threads.isEmpty with ht | hf
          · exact ht
          · exact absurd ⟨h1, h2, hf⟩ hn
        rw [if_pos h3]
      · have h2' : (g.threads.all fun p => p.2.isInControlPoint) = false := by
          rcases Bool.eq_false_or_eq_true (g.threads.all fun p => p.2.isInControlPoint)
            with ht | hf
          · exact absurd ht h2
          · exact hf
        rw [h2']
        simp only [Bool.not_false, if_true]
    · rw [if_pos h1]
  · rintro ⟨h1, h2, h3⟩ os' g' hc hlk
    simp only [UpdateActiveThread, clearSelf_threadsToSub, clearSelf_threads,
      any_not_flag_eq]
    rw [if_neg (by omega), h2]
    simp only [Bool.not_true, Bool.false_eq_true, if_false, h3]
    obtain ⟨st, hst⟩ := Option.isSome_iff_exists.mp hlk
    simp only [hc, hst]

/-- Closed witness for C2 (amended): with the three conditions holding and a
successful EXPLORE selection, the reattempt launches the chosen thread. -/
theorem c2_witness :
    UpdateActiveThread c2WitState 5 0 =
      Out.ok true { c2WitMid with threads := setFlag 5 false c2WitMid.threads,
                                  activeThreadId := some 5 } :=
  (c2_update_active_guards c2WitState 5 0).2 (by decide) 5 c2WitMid (by decide) (by decide)

/-! ## C10: the EXPLORE repair step and the final lookup -/

theorem findGE_some (t : Nat) (l : List (Nat × Nat))
    (h : ∃ k ∈ l.map Prod.fst, t ≤ k) :
    ∃ k', findGE t l = some k' ∧ k' ∈ l.map Prod.fst := by
  induction l with
  | nil => simp at h
  | cons p rest ih =>
    obtain ⟨k0, v0⟩ := p
    rw [findGE]
    by_cases hp : t ≤ k0
    · rw [if_pos hp]
      exact ⟨k0, rfl, by simp⟩
    · rw [if_neg hp]
      have h' : ∃ k ∈ rest.map Prod.fst, t ≤ k := by
        obtain ⟨k, hk, htk⟩ := h
        simp only [List.map_cons, List.mem_cons] at hk
        rcases hk with heq | hm
        · subst heq
          exact absurd htk hp
        · exact ⟨k, hm, htk⟩
      obtain ⟨k', hfind, hmem⟩ := ih h'
      exact ⟨k', hfind, by simp [hmem]⟩

theorem findGE_none (t : Nat) (l : List (Nat × Nat))
    (h : ∀ k ∈ l.map Prod.fst, k < t) : findGE t l = none := by
  induction l with
  | nil => rfl
  | cons p rest ih =>
    obtain ⟨k0, v0⟩ := p
    have hk0 : k0 < t := h k0 (by simp)
    rw [findGE, if_neg (by omega)]
    exact ih fun k hk => h k (by simp [hk])

theorem lookupTid_isSome_of_mem (k : Nat) (l : List (Nat × Nat))
    (h : k ∈ l.map Prod.fst) : ∃ os, lookupTid k l = some os := by
  induction l with
  | nil => simp at h
  | cons p rest ih =>
    obtain ⟨k0, v0⟩ := p
    rw [lookupTid]
    by_cases he : k0 = k
    · rw [if_pos he]
      exact ⟨v0, rfl⟩
    · rw [if_neg he]
      apply ih
      simp only [List.map_cons, List.mem_cons] at h
      rcases h with heq | hm
      · exact absurd heq.symm he
      · exact hm

theorem lookupTid_eq_none (k : Nat) (l : List (Nat × Nat))
    (h : k ∉ l.map Prod.fst) : lookupTid k l = none := by
  induction l with
  | nil => rfl
  | cons p rest ih =>
    obtain ⟨k0, v0⟩ := p
    have hne : k0 ≠ k := by
      intro heq
      exact h (by simp [heq])
    rw [lookupTid, if_neg hne]
    exact ih fun hm => h (by simp [hm])

/-- C10: when EXPLORE consumes the final stored SchedPoint, the repair loop
(first subscribed id `≥` the recorded one) makes the final registry lookup
succeed precisely under the unstated precondition that some subscribed
`threadId` is `≥` the recorded one; without it the loop leaves the recorded
id in place, the lookup fails, and the assertion-failure branch is taken
(the process dies). -/
theorem c10_explore_repair :
    (∀ (g : GovState) (ridx : Nat),
      g.threads.isEmpty = false → g.threadIds.isEmpty = false →
      g.schedIdx + 1 = g.sched.length →
      (∃ k ∈ g.threadIds.map Prod.fst,
        (g.sched.getD g.schedIdx ⟨0, 0, 0⟩).threadId ≤ k) →
      ∃ os g', ChooseThread g RunMode.RUN_EXPLORE ridx = Out.ok os g') ∧
    (∀ (g : GovState) (ridx : Nat),
      g.threads.isEmpty = false → g.threadIds.isEmpty = false →
      g.schedIdx + 1 = g.sched.length →
      (∀ k ∈ g.threadIds.map Prod.fst,
        k < (g.sched.getD g.schedIdx ⟨0, 0, 0⟩).threadId) →
      ∃ m g', ChooseThread g RunMode.RUN_EXPLORE ridx = Out.abort m g') := by
  constructor
  · intro g ridx hne1 hne2 hlen hex
    obtain ⟨k', hfind, hmem⟩ := findGE_some _ _ hex
    obtain ⟨os, hos⟩ := lookupTid_isSome_of_mem k' g.threadIds hmem
    simp only [ChooseThread, hne1, hne2, Bool.or_self, Bool.false_eq_true, if_false]
    rw [if_neg (by omega), if_neg (by omega), if_pos (by simp only []; omega)]
    simp only [chooseFinish, hfind, Option.getD_some, hos]
    exact ⟨os, _, rfl⟩
  · intro g ridx hne1 hne2 hlen hall
    have hfind : findGE (g.sched.getD g.schedIdx ⟨0, 0, 0⟩).threadId g.threadIds = none :=
      findGE_none _ _ hall
    have hnm : (g.sched.getD g.schedIdx ⟨0, 0, 0⟩).threadId ∉ g.threadIds.map Prod.fst := by
      intro hm
      exact absurd (hall _ hm) (by omega)
    have hlk := lookupTid_eq_none _ _ hnm
    simp only [ChooseThread, hne1, hne2, Bool.or_self, Bool.false_eq_true, if_false]
    rw [if_neg (by omega), if_neg (by omega), if_pos (by simp only []; omega)]
    simp only [chooseFinish, hfind, Option.getD_none, hlk]
    exact ⟨_, _, rfl⟩

/-- Closed witness for C10: both halves at concrete states. -/
theorem c10_witness :
    (ChooseThread c10OkState RunMode.RUN_EXPLORE 0).isAbort = false ∧
    (ChooseThread c10BadState RunMode.RUN_EXPLORE 0).isAbort = true := by
  constructor
  · obtain ⟨os, g', h⟩ :=
      c10_explore_repair.1 c10OkState 0 rfl rfl rfl ⟨0, by decide, by decide⟩
    rw [h]
    rfl
  · obtain ⟨m, g', h⟩ := c10_explore_repair.2 c10BadState 0 rfl rfl rfl (by decide)
    rw [h]
    rfl

/-! ## C3: the `higher < available` invariant -/

theorem goodSched_append (l : List SchedPoint) (sp : SchedPoint)
    (hl : goodSched l = true) (hsp : sp.higher < sp.available) :
    goodSched (l ++ [sp]) = true := by
  simp only [goodSched, List.all_append, List.all_cons, List.all_nil, Bool.and_eq_true] at *
  exact ⟨hl, by simpa using hsp, trivial⟩

theorem goodSched_getD (l : List SchedPoint) (i : Nat) (d : SchedPoint)
    (hl : goodSched l = true) (hi : i < l.length) :
    (l.getD i d).higher < (l.getD i d).available := by
  rw [List.getD_eq_getElem l d hi]
  have := (List.all_eq_true.mp hl) (l[i]) (List.getElem_mem hi)
  simpa using this

theorem countGreater_lt_length (tid : Nat) (l : List (Nat × Nat))
    (h : tid ∈ l.map Prod.fst) : countGreater tid l < l.length := by
  induction l with
  | nil => simp at h
  | cons p rest ih =>
    simp only [List.map_cons, List.mem_cons] at h
    rw [countGreater, List.filter_cons]
    rcases h with heq | hm
    · rw [if_neg (by simp [heq, Nat.lt_irrefl])]
      have := List.length_filter_le (fun p : Nat × Nat => decide (tid < p.1)) rest
      simp only [List.length_cons]
      calc (List.filter (fun p : Nat × Nat => decide (tid < p.1)) rest).length
          ≤ rest.length := List.length_filter_le _ rest
        _ < rest.length + 1 := Nat.lt_succ_self _
    · have := ih hm
      rw [countGreater] at this
      split
      · simpa using Nat.succ_lt_succ this
      · simp only [List.length_cons]
        omega

theorem sorted_head_lt (p : Nat × Nat) (rest : List (Nat × Nat))
    (hs : sortedByKey (p :: rest) = true) :
    ∀ q ∈ rest, p.1 < q.1 := by
  induction rest generalizing p with
  | nil => intro q hq; simp at hq
  | cons q rest ih =>
    have hs' : p.1 < q.1 ∧ sortedByKey (q :: rest) = true := by
      simpa [sortedByKey] using hs
    intro x hx
    rcases List.mem_cons.mp hx with rfl | hm
    · exact hs'.1
    · exact Nat.lt_trans hs'.1 (ih q hs'.2 x hm)

theorem countGreater_head (p : Nat × Nat) (rest : List (Nat × Nat))
    (hs : sortedByKey (p :: rest) = true) :
    countGreater p.1 (p :: rest) = rest.length := by
  rw [countGreater, List.filter_cons, if_neg (by simp [Nat.lt_irrefl])]
  have hall : ∀ q ∈ rest, p.1 < q.1 := sorted_head_lt p rest hs
  have : List.filter (fun q : Nat × Nat => decide (p.1 < q.1)) rest = rest :=
    List.filter_eq_self.mpr fun q hq => by simpa using hall q hq
  rw [this]

theorem writeRecs_snoc (l : List SchedPoint) (sp : SchedPoint) :
    writeRecs l ++ sp.writeChars = writeRecs (l ++ [sp]) := by
  simp [writeRecs]

theorem writeMode_true_ne_preset (m : RunMode) (h : writeMode m = true) :
    m ≠ RunMode.RUN_PRESET := by
  cases m <;> simp_all [writeMode]

theorem getD_mod_mem {α : Type} (l : List α) (i : Nat) (d : α) (h : l ≠ []) :
    l.getD (i % l.length) d ∈ l := by
  have hlen : 0 < l.length := List.length_pos.mpr h
  have hi : i % l.length < l.length := Nat.mod_lt _ hlen
  rw [List.getD_eq_getElem l d hi]
  exact List.getElem_mem hi

theorem goodSched_reverse (l : List SchedPoint) :
    goodSched l.reverse = goodSched l := by
  induction l with
  | nil => rfl
  | cons sp rest ih =>
    simp [goodSched, List.all_append, List.all_reverse, Bool.and_comm]

theorem dfsAdvanceRev_good (l : List SchedPoint) (h : goodSched l = true) :
    goodSched (dfsAdvanceRev l) = true := by
  induction l with
  | nil => rfl
  | cons sp rest ih =>
    simp only [goodSched, List.all_cons, Bool.and_eq_true, decide_eq_true_eq] at h
    rw [dfsAdvanceRev]
    split
    · exact ih (by simpa [goodSched] using h.2)
    · simp only [goodSched, List.all_cons, Bool.and_eq_true, decide_eq_true_eq]
      refine ⟨by omega, by simpa [goodSched] using h.2⟩

theorem dfsAdvance_good (l : List SchedPoint) (h : goodSched l = true) :
    goodSched (dfsAdvance l) = true := by
  rw [dfsAdvance, goodSched_reverse]
  exact dfsAdvanceRev_good l.reverse (by rwa [goodSched_reverse])

theorem chooseFinish_sched (g : GovState) (sp : SchedPoint) :
    (chooseFinish g sp).state.sched = g.sched := by
  rw [chooseFinish]
  split
  · rfl
  · simp only [Out.state, fileAppend]
    split <;> rfl

theorem chooseFinish_inv (g : GovState) (sp : SchedPoint)
    (hinv : SchedInv g) (hsp : sp.higher < sp.available) :
    SchedInv (chooseFinish g sp).state := by
  rw [chooseFinish]
  split
  · exact hinv
  · simp only [Out.state, fileAppend]
    split
    · rename_i hw
      refine ⟨hinv.1, ?_, ?_⟩
      · intro hpm
        exact absurd hpm (writeMode_true_ne_preset _ hw)
      · intro _
        obtain ⟨L, hfile, hgood⟩ := hinv.2.2 (writeMode_true_ne_preset _ hw)
        exact ⟨L ++ [sp], by rw [← writeRecs_snoc, hfile], goodSched_append L sp hgood hsp⟩
    · exact hinv

theorem ite_repair_good (c : Prop) [Decidable c] (sp : SchedPoint) (t : Nat)
    (h : sp.higher < sp.available) :
    (if c then { sp with threadId := t } else sp).higher <
      (if c then { sp with threadId := t } else sp).available := by
  split <;> exact h

theorem chooseThread_inv (g : GovState) (mode : RunMode) (r : Nat)
    (hinv : SchedInv g) : SchedInv (ChooseThread g mode r).state := by
  cases mode with
  | RUN_RANDOM =>
    simp only [ChooseThread]
    split
    · exact hinv
    · rename_i hne
      have hids : g.threadIds ≠ [] := by
        intro hnil
        exact hne (by simp [hnil])
      have htid : (g.threadIds.map Prod.fst).getD (r % (g.threadIds.map Prod.fst).length) 0
          ∈ g.threadIds.map Prod.fst :=
        getD_mod_mem _ _ _ (by simpa using hids)
      have hlt := countGreater_lt_length _ g.threadIds htid
      apply chooseFinish_inv
      · exact ⟨goodSched_append _ _ hinv.1 (by simpa [List.length_map] using hlt), hinv.2⟩
      · simpa [List.length_map] using hlt
  | RUN_EXPLORE =>
    simp only [ChooseThread]
    split
    · exact hinv
    · rename_i hne
      have hids : g.threadIds ≠ [] := by
        intro hnil
        exact hne (by simp [hnil])
      have hlen1 : 0 < g.threadIds.length := List.length_pos.mpr hids
      split
      · exact hinv
      · rename_i hle
        try simp only [] at hle
        split
        · rename_i hidx
          try simp only [] at hidx
          have hgood2 : goodSched (g.sched ++ [⟨(g.threadIds.map Prod.fst).headD 0,
              g.threadIds.length, g.threadIds.length - 1⟩]) = true := by
            apply goodSched_append _ _ hinv.1
            simp only []
            omega
          have hinv2 : SchedInv
              { g with
                schedIdx := g.schedIdx + 1
                sched := g.sched ++ [⟨(g.threadIds.map Prod.fst).headD 0,
                  g.threadIds.length, g.threadIds.length - 1⟩] } :=
            ⟨hgood2, hinv.2⟩
          have hidxlt : g.schedIdx < (g.sched ++ [(⟨(g.threadIds.map Prod.fst).headD 0,
              g.threadIds.length, g.threadIds.length - 1⟩ : SchedPoint)]).length := by
            simp only [List.length_append, List.length_cons, List.length_nil]
            omega
          apply chooseFinish_inv _ _ hinv2
          exact ite_repair_good _ _ _ (goodSched_getD _ _ _ hgood2 hidxlt)
        · rename_i hidx
          try simp only [] at hidx
          have hidxlt : g.schedIdx < g.sched.length := by omega
          have hinv1 : SchedInv { g with schedIdx := g.schedIdx + 1 } := ⟨hinv.1, hinv.2⟩
          apply chooseFinish_inv _ _ hinv1
          exact ite_repair_good _ _ _ (goodSched_getD _ _ _ hinv.1 hidxlt)
  | RUN_PRESET =>
    simp only [ChooseThread]
    split
    · exact hinv
    · split
      · exact hinv
      · rename_i hlen
        try simp only [] at hlen
        split
        · exact hinv
        · split
          · exact hinv
          · split
            · exact hinv
            · apply chooseFinish_inv { g with schedIdx := g.schedIdx + 1 } _
                ⟨hinv.1, hinv.2⟩
              exact goodSched_getD _ _ _ hinv.1 (by omega)

theorem updateActive_inv (g : GovState) (os r : Nat) (hinv : SchedInv g) :
    SchedInv (UpdateActiveThread g os r).state := by
  simp only [UpdateActiveThread]
  have h0 : SchedInv (clearSelf g os) := by
    rw [clearSelf]
    split
    · exact ⟨hinv.1, hinv.2⟩
    · exact hinv
  split
  · exact h0
  · split
    · exact h0
    · split
      · exact h0
      · have hct := chooseThread_inv (clearSelf g os) (clearSelf g os).runMode r h0
        cases hc : ChooseThread (clearSelf g os) (clearSelf g os).runMode r with
        | abort m s =>
          rw [hc] at hct
          simp only [hc]
          exact hct
        | ok os' gc =>
          rw [hc] at hct
          simp only [Out.state] at hct
          simp only [hc]
          cases hlk : lookupOs os' gc.threads with
          | none =>
            simp only [hlk]
            exact hct
          | some st =>
            simp only [hlk]
            exact ⟨hct.1, hct.2⟩

theorem subscribe_inv (g : GovState) (os tid : Nat) (hinv : SchedInv g) :
    SchedInv (Subscribe g os tid).state := by
  rw [Subscribe]
  split
  · exact hinv
  · split
    · exact hinv
    · split
      · exact hinv
      · exact ⟨hinv.1, hinv.2⟩

theorem unsubscribe_inv (g : GovState) (os r : Nat) (hinv : SchedInv g) :
    SchedInv (Unsubscribe g os r).state := by
  simp only [Unsubscribe]
  cases hlk : lookupOs os g.threads with
  | none =>
    simp only [hlk]
    exact hinv
  | some st =>
    simp only [hlk]
    have hu := updateActive_inv
      { g with threads := eraseKey os g.threads,
               threadIds := eraseKey st.threadId g.threadIds } os r ⟨hinv.1, hinv.2⟩
    cases hc : UpdateActiveThread
        { g with threads := eraseKey os g.threads,
                 threadIds := eraseKey st.threadId g.threadIds } os r with
    | abort m s =>
      rw [hc] at hu
      simp only [hc]
      exact hu
    | ok b s =>
      rw [hc] at hu
      simp only [hc]
      exact hu

theorem controlPoint_inv (g : GovState) (os r : Nat) (hinv : SchedInv g) :
    SchedInv (ControlPoint g os r).state := by
  simp only [ControlPoint]
  cases hlk : lookupOs os g.threads with
  | none =>
    simp only [hlk]
    exact hinv
  | some st =>
    simp only [hlk]
    have hu := updateActive_inv
      { g with threads := setFlag os true g.threads } os r ⟨hinv.1, hinv.2⟩
    cases hc : UpdateActiveThread { g with threads := setFlag os true g.threads } os r with
    | abort m s =>
      rw [hc] at hu
      simp only [hc]
      exact hu
    | ok b s =>
      rw [hc] at hu
      simp only [hc]
      exact hu

theorem hofClose_sched (g : GovState) : (HandleOutFileClose g).sched = g.sched := by
  rw [HandleOutFileClose]
  split <;> rfl

theorem hofClose_file_write (g : GovState) (h : writeMode g.runMode = true) :
    (HandleOutFileClose g).file = g.file ++ endChars := by
  rw [HandleOutFileClose, if_pos h]

/-- After `HandleOutFile(false)` the state invariant holds, given that the
in-memory sequence and the records parsed from the file are good. -/
theorem hofOpen_inv (g1 : GovState) (hs : goodSched g1.sched = true)
    (hr : goodSched (readSched g1.file).1 = true) :
    SchedInv (HandleOutFileOpen g1) := by
  rw [HandleOutFileOpen]
  split
  · rename_i hmode
    split
    · rename_i hw
      refine ⟨hr, fun hpm => absurd ?_ (writeMode_true_ne_preset _ hw), fun _ => ⟨[], rfl, rfl⟩⟩
      exact hpm
    · rename_i hw
      have hpm : g1.runMode = RunMode.RUN_PRESET := by
        rcases hmode with hm | hm
        · exact absurd (by simp [writeMode, hm]) hw
        · exact hm
      exact ⟨hr, fun _ => hr, fun hne => absurd hpm hne⟩
  · rename_i hmode
    have hnp : g1.runMode ≠ RunMode.RUN_PRESET := fun hp => hmode (Or.inr hp)
    split
    · exact ⟨hs, fun hpm => absurd hpm (by simpa using hnp), fun _ => ⟨[], rfl, rfl⟩⟩
    · rename_i hw
      exact absurd (by cases hm : g1.runMode <;> simp_all [writeMode]) hw

theorem FileInv_congr (gb ga : GovState) (hrm : gb.runMode = ga.runMode)
    (hf : gb.file = ga.file) (h : FileInv ga) : FileInv gb := by
  rw [FileInv, hrm, hf]
  exact h

theorem resetDispatch_inv (g2 : GovState) (hinv2 : SchedInv g2) :
    SchedInv (resetDispatch g2).state := by
  cases hmode : g2.runMode with
  | RUN_RANDOM =>
    simp only [resetDispatch, hmode]
    exact ⟨rfl, FileInv_congr _ _ hmode.symm rfl hinv2.2⟩
  | RUN_EXPLORE =>
    simp only [resetDispatch, hmode]
    cases hdone : g2.schedDone with
    | false =>
      simp only [hdone, Bool.not_false, if_true]
      exact ⟨hinv2.1, FileInv_congr _ _ hmode.symm rfl hinv2.2⟩
    | true =>
      simp only [hdone, Bool.not_true, Bool.false_eq_true, if_false]
      cases hemp : (dfsAdvance g2.sched).isEmpty with
      | true =>
        simp only [hemp, if_true]
        exact ⟨dfsAdvance_good _ hinv2.1, FileInv_congr _ _ hmode.symm rfl hinv2.2⟩
      | false =>
        simp only [hemp, Bool.false_eq_true, if_false]
        exact ⟨dfsAdvance_good _ hinv2.1, FileInv_congr _ _ hmode.symm rfl hinv2.2⟩
  | RUN_PRESET =>
    simp only [resetDispatch, hmode]
    exact ⟨hinv2.1, FileInv_congr _ _ hmode.symm rfl hinv2.2⟩

theorem reset_inv (g : GovState) (f : Bool) (hinv : SchedInv g) :
    SchedInv (Reset g f).state := by
  by_cases h0 : (!f && g.schedIdx == 0) = true
  · rw [Reset, if_pos h0]
    exact hinv
  · have h0' : (!f && g.schedIdx == 0) = false := by
      rcases Bool.eq_false_or_eq_true (!f && g.schedIdx == 0) with ht | hf
      · exact absurd ht h0
      · exact hf
    have hg1s : (if 0 < g.schedIdx then HandleOutFileClose g else g).sched = g.sched := by
      split
      · exact hofClose_sched g
      · rfl
    have hg1rm : (if 0 < g.schedIdx then HandleOutFileClose g else g).runMode = g.runMode := by
      split
      · exact hofClose_runMode g
      · rfl
    have hr : goodSched (readSched
        (if 0 < g.schedIdx then HandleOutFileClose g else g).file).1 = true := by
      by_cases hm : g.runMode = RunMode.RUN_PRESET
      · have hfe : (if 0 < g.schedIdx then HandleOutFileClose g else g).file = g.file := by
          split
          · rw [hofClose_preset g hm]
          · rfl
        rw [hfe]
        exact hinv.2.1 hm
      · obtain ⟨L, hfile, hgood⟩ := hinv.2.2 hm
        have hwm : writeMode g.runMode = true := by
          cases hmm : g.runMode <;> simp_all [writeMode]
        split
        · rw [hofClose_file_write g hwm, hfile, readSched_flat L endChars (by decide)]
          exact hgood
        · rw [hfile, readSched_flat_nil L]
          exact hgood
    have hopen : SchedInv
        (HandleOutFileOpen (if 0 < g.schedIdx then HandleOutFileClose g else g)) :=
      hofOpen_inv _ (by rw [hg1s]; exact hinv.1) hr
    have hrm2 : (HandleOutFileOpen
        (if 0 < g.schedIdx then HandleOutFileClose g else g)).runMode = g.runMode := by
      rw [hofOpen_runMode]
      exact hg1rm
    rw [Reset, if_neg (by simp [h0'])]
    exact resetDispatch_inv _ hopen

theorem sched_ne_snoc (l : List SchedPoint) (sp : SchedPoint) : l ≠ l ++ [sp] := by
  intro h
  have := congrArg List.length h
  simp at this

theorem snoc_inj (l : List SchedPoint) (a b : SchedPoint) (h : l ++ [a] = l ++ [b]) :
    a = b := by
  have h2 := List.append_cancel_left h
  simpa using h2

theorem chooseThread_preset_sched (g : GovState) (r : Nat) :
    (ChooseThread g RunMode.RUN_PRESET r).state.sched = g.sched := by
  simp only [ChooseThread]
  split
  · rfl
  · split
    · rfl
    · split
      · rfl
      · split
        · rfl
        · split
          · rfl
          · rw [chooseFinish_sched]

theorem chooseThread_production (g : GovState) (mode : RunMode) (r : Nat) (sp : SchedPoint)
    (hsort : sortedByKey g.threadIds = true)
    (happ : (ChooseThread g mode r).state.sched = g.sched ++ [sp]) :
    sp.available = g.threadIds.length ∧
    sp.higher = countGreater sp.threadId g.threadIds ∧
    sp.higher < sp.available := by
  cases mode with
  | RUN_RANDOM =>
    simp only [ChooseThread] at happ
    by_cases hne : (g.threads.isEmpty || g.threadIds.isEmpty) = true
    · rw [if_pos hne] at happ
      simp only [Out.state] at happ
      exact absurd happ (sched_ne_snoc _ _)
    · rw [if_neg hne] at happ
      rw [chooseFinish_sched] at happ
      try simp only [] at happ
      have hids : g.threadIds ≠ [] := by
        intro hnil
        exact hne (by simp [hnil])
      have htid := getD_mod_mem (g.threadIds.map Prod.fst) r 0 (by simpa using hids)
      have hsp := snoc_inj _ _ _ happ
      subst hsp
      refine ⟨by simp, rfl, ?_⟩
      show countGreater ((g.threadIds.map Prod.fst).getD
        (r % (g.threadIds.map Prod.fst).length) 0) g.threadIds <
        (g.threadIds.map Prod.fst).length
      simpa [List.length_map] using countGreater_lt_length _ g.threadIds htid
  | RUN_EXPLORE =>
    simp only [ChooseThread] at happ
    by_cases hne : (g.threads.isEmpty || g.threadIds.isEmpty) = true
    · rw [if_pos hne] at happ
      simp only [Out.state] at happ
      exact absurd happ (sched_ne_snoc _ _)
    · rw [if_neg hne] at happ
      have hids : g.threadIds ≠ [] := by
        intro hnil
        exact hne (by simp [hnil])
      have hlen1 : 0 < g.threadIds.length := List.length_pos.mpr hids
      by_cases hle : g.sched.length < g.schedIdx
      · rw [if_pos hle] at happ
        simp only [Out.state] at happ
        exact absurd happ (sched_ne_snoc _ _)
      · rw [if_neg hle] at happ
        by_cases hidx : g.schedIdx = g.sched.length
        · rw [if_pos hidx] at happ
          rw [chooseFinish_sched] at happ
          try simp only [] at happ
          have hsp := snoc_inj _ _ _ happ
          subst hsp
          obtain ⟨p, rest, hpids⟩ : ∃ p rest, g.threadIds = p :: rest := by
            cases hc : g.threadIds with
            | nil => exact absurd hc hids
            | cons p rest => exact ⟨p, rest, rfl⟩
          refine ⟨rfl, ?_, ?_⟩
          · show g.threadIds.length - 1 =
              countGreater ((g.threadIds.map Prod.fst).headD 0) g.threadIds
            rw [hpids]
            have hh : ((p :: rest).map Prod.fst).headD 0 = p.1 := by simp
            rw [hh, countGreater_head p rest (by rw [← hpids]; exact hpids ▸ hsort)]
            simp
          · show g.threadIds.length - 1 < g.threadIds.length
            omega
        · rw [if_neg hidx] at happ
          rw [chooseFinish_sched] at happ
          try simp only [] at happ
          exact absurd happ (sched_ne_snoc _ _)
  | RUN_PRESET =>
    rw [chooseThread_preset_sched] at happ
    exact absurd happ (sched_ne_snoc _ _)

/-- C3: provided the state satisfies the invariant (every stored SchedPoint
has `higher < available`, and the backing file's records do too) and the
`_threadIds` map is sorted, every public operation (`Prepare`, `Subscribe`,
`Unsubscribe`, `ControlPoint`, `Reset`) preserves the invariant; and
whenever the Chooser produces (appends) a new SchedPoint, its `available`
equals the number of currently subscribed threads and its `higher` equals
the number of subscribed ids strictly greater than its `threadId` (hence
`higher < available`). -/
theorem c3_sched_invariants (g : GovState) (hinv : SchedInv g)
    (hsort : sortedByKey g.threadIds = true) :
    (∀ n, SchedInv (Prepare g n)) ∧
    (∀ os tid, SchedInv (Subscribe g os tid).state) ∧
    (∀ os r, SchedInv (Unsubscribe g os r).state) ∧
    (∀ os r, SchedInv (ControlPoint g os r).state) ∧
    (∀ f, SchedInv (Reset g f).state) ∧
    (∀ mode r sp, (ChooseThread g mode r).state.sched = g.sched ++ [sp] →
      sp.available = g.threadIds.length ∧
      sp.higher = countGreater sp.threadId g.threadIds ∧
      sp.higher < sp.available) :=
  ⟨fun _ => ⟨hinv.1, hinv.2⟩,
   fun os tid => subscribe_inv g os tid hinv,
   fun os r => unsubscribe_inv g os r hinv,
   fun os r => controlPoint_inv g os r hinv,
   fun f => reset_inv g f hinv,
   fun mode r sp happ => chooseThread_production g mode r sp hsort happ⟩

theorem c3WitState_inv : SchedInv c3WitState :=
  ⟨by decide, fun h => absurd h (by decide), fun _ => ⟨[], rfl, rfl⟩⟩

/-- Closed witness for C3: the invariant is preserved across a `Reset` and a
`ControlPoint` from a concrete well-formed state. -/
theorem c3_witness :
    SchedInv (Reset c3WitState false).state ∧
    SchedInv (ControlPoint c3WitState 5 0).state :=
  ⟨(c3_sched_invariants c3WitState c3WitState_inv (by decide)).2.2.2.2.1 false,
   (c3_sched_invariants c3WitState c3WitState_inv (by decide)).2.2.2.1 5 0⟩
